import Mathlib

/-!
Verification of the batch-reduction layer of `tensorflow_transform/tf_utils.py`.

The reducers are shallowly embedded over explicit list representations of
dense and sparse tensors.  Floating-point values are modelled exactly by the
type `EFloat` (NaN, the two infinities, and finite rationals); all arithmetic
appearing in the claims is exact, so no rounding model is needed.  Machine
integers use `Int` with an explicit two's-complement wrap where the source
performs fixed-width arithmetic (negation of int32/int64 tensors).
-/

set_option maxRecDepth 4000

namespace TfUtils

/-- Extended floating-point values: NaN, +inf, -inf, or an exact finite value. -/
inductive EFloat where
  | nan : EFloat
  | inf : EFloat
  | ninf : EFloat
  | fin : ℚ → EFloat
deriving DecidableEq

/-- Model of `tf.is_nan`, elementwise. -/
def EFloat.isNaN : EFloat → Bool
  | .nan => true
  | _ => false

/-- Model of `tf.math.is_inf`: true on both infinities. -/
def EFloat.isInfB : EFloat → Bool
  | .inf => true
  | .ninf => true
  | _ => false

/-- IEEE-style addition on extended floats (NaN absorbs; inf + -inf = NaN). -/
def EFloat.add : EFloat → EFloat → EFloat
  | .nan, _ => .nan
  | _, .nan => .nan
  | .inf, .ninf => .nan
  | .ninf, .inf => .nan
  | .inf, _ => .inf
  | _, .inf => .inf
  | .ninf, _ => .ninf
  | _, .ninf => .ninf
  | .fin a, .fin b => .fin (a + b)

/-- IEEE-style negation. -/
def EFloat.neg : EFloat → EFloat
  | .nan => .nan
  | .inf => .ninf
  | .ninf => .inf
  | .fin a => .fin (-a)

/-- Subtraction, derived as addition of the negation. -/
def EFloat.sub (a b : EFloat) : EFloat := a.add b.neg

/-- IEEE-style multiplication (inf * 0 = NaN, signs respected). -/
def EFloat.mul : EFloat → EFloat → EFloat
  | .nan, _ => .nan
  | _, .nan => .nan
  | .inf, .inf => .inf
  | .inf, .ninf => .ninf
  | .ninf, .inf => .ninf
  | .ninf, .ninf => .inf
  | .inf, .fin b => if b = 0 then .nan else if 0 < b then .inf else .ninf
  | .fin a, .inf => if a = 0 then .nan else if 0 < a then .inf else .ninf
  | .ninf, .fin b => if b = 0 then .nan else if 0 < b then .ninf else .inf
  | .fin a, .ninf => if a = 0 then .nan else if 0 < a then .ninf else .inf
  | .fin a, .fin b => .fin (a * b)

/-- IEEE-style division (x/0 gives a signed infinity, 0/0 and inf/inf give NaN). -/
def EFloat.div : EFloat → EFloat → EFloat
  | .nan, _ => .nan
  | _, .nan => .nan
  | .inf, .inf => .nan
  | .inf, .ninf => .nan
  | .ninf, .inf => .nan
  | .ninf, .ninf => .nan
  | .inf, .fin b => if 0 ≤ b then .inf else .ninf
  | .ninf, .fin b => if 0 ≤ b then .ninf else .inf
  | .fin _, .inf => .fin 0
  | .fin _, .ninf => .fin 0
  | .fin a, .fin b =>
    if b = 0 then (if a = 0 then .nan else if 0 < a then .inf else .ninf)
    else .fin (a / b)

/-- IEEE-style strict comparison: any comparison with NaN is false. -/
def EFloat.ltB : EFloat → EFloat → Bool
  | .nan, _ => false
  | _, .nan => false
  | .ninf, .ninf => false
  | .ninf, _ => true
  | _, .ninf => false
  | .inf, _ => false
  | _, .inf => true
  | .fin a, .fin b => decide (a < b)

/-- One step of the maximum reduction as the numeric kernel performs it:
`accum := (accum < t) ? t : accum`, so a NaN element never replaces the
accumulator and an all-NaN reduction keeps the -inf initial value. -/
def EFloat.maxi (a b : EFloat) : EFloat := if a.ltB b then b else a

/-- Model of `tf.reduce_max` on a flat floating tensor: fold of `maxi`
starting from the dtype's lowest value, which is -inf. -/
def reduce_max_float (xs : List EFloat) : EFloat := xs.foldl EFloat.maxi .ninf

/-- Lowest int64 value, the initial accumulator of an int64 `tf.reduce_max`. -/
def int64_lowest : Int := -(2 ^ 63)

/-- Highest int64 value, the initial accumulator of an int64 `tf.reduce_min`. -/
def int64_highest : Int := 2 ^ 63 - 1

/-- Lowest int32 value, the initial accumulator of an int32 `tf.reduce_max`. -/
def int32_lowest : Int := -(2 ^ 31)

/-- Model of `tf.reduce_max` on a flat integer tensor. -/
def reduce_max_int (init : Int) (xs : List Int) : Int := xs.foldl max init

/-- Model of `tf.reduce_min` on a flat integer tensor. -/
def reduce_min_int (init : Int) (xs : List Int) : Int := xs.foldl min init

/-- Two's-complement wrap of an integer to `w` bits. -/
def wrap (w : Nat) (n : Int) : Int := (n + 2 ^ (w - 1)) % 2 ^ w - 2 ^ (w - 1)

/-- Model of `tf.cast(x, tf.float32)` on an integer element: integer-to-float
conversion never produces NaN, which is all `reduce_batch_count` inspects. -/
def cast_to_float32 (v : Int) : EFloat := .fin (v : ℚ)

/-!
Dense reducers on int64 batches, `reduce_instance_dims = True`
(`tf_utils.py`, `reduce_batch_sum` / `reduce_batch_count` /
`reduce_batch_minus_min_and_max`, dense branches, full collapse).
-/

/-- `reduce_batch_sum` on a dense int64 batch, fully collapsed:
`tf.where(tf.is_nan(tf.cast(x, tf.float32)), tf.zeros_like(x), x)` then
`tf.reduce_sum`. -/
def reduce_batch_sum_dense_int (x : List Int) : Int :=
  (x.map fun v => if (cast_to_float32 v).isNaN then 0 else v).sum

/-- `reduce_batch_count` on a dense int64 batch, fully collapsed: the
NaN-masked indicator (`tf.where(is_nan(cast), zeros_like, ones_like)`) is
summed by `reduce_batch_sum`. -/
def reduce_batch_count_dense_int (x : List Int) : Int :=
  reduce_batch_sum_dense_int (x.map fun v => if (cast_to_float32 v).isNaN then 0 else 1)

/-- `reduce_batch_minus_min_and_max` on a dense int64 batch, fully collapsed:
`(tf.reduce_max(0 - x), tf.reduce_max(x))`, with int64 subtraction wrapping.
`_inf_to_nan` is the identity on a non-floating dtype. -/
def reduce_batch_minus_min_and_max_dense_int (x : List Int) : Int × Int :=
  (reduce_max_int int64_lowest (x.map fun v => wrap 64 (0 - v)),
   reduce_max_int int64_lowest x)

/-!
Dense reducers on floating batches, `reduce_instance_dims = True`.
-/

/-- `reduce_batch_sum` on a dense floating batch, fully collapsed: NaN entries
are replaced by zero, then everything is summed. -/
def reduce_batch_sum_dense_float (x : List EFloat) : EFloat :=
  (x.map fun v => if v.isNaN then EFloat.fin 0 else v).foldl EFloat.add (.fin 0)

/-- The NaN indicator `tf.where(is_nan(x), zeros_like(x), ones_like(x))`. -/
def ones_like_masked (x : List EFloat) : List EFloat :=
  x.map fun v => if v.isNaN then EFloat.fin 0 else EFloat.fin 1

/-- `reduce_batch_count` on a dense floating batch, fully collapsed. -/
def reduce_batch_count_dense_float (x : List EFloat) : EFloat :=
  reduce_batch_sum_dense_float (ones_like_masked x)

/-- `reduce_batch_count_mean_and_var` on a dense floating batch, fully
collapsed: count, mean = sum/count, variance = sum((x-mean)^2)/count. -/
def reduce_batch_count_mean_and_var_dense_float (x : List EFloat) :
    EFloat × EFloat × EFloat :=
  let x_count := reduce_batch_count_dense_float x
  let x_mean := (reduce_batch_sum_dense_float x).div x_count
  let x_minus_mean := x.map fun v => v.sub x_mean
  let x_variance :=
    (reduce_batch_sum_dense_float (x_minus_mean.map fun v => v.mul v)).div x_count
  (x_count, x_mean, x_variance)

/-!
Generic fold lemmas for maximum reductions.
-/

theorem le_foldl_max {β : Type} [LinearOrder β] (l : List β) :
    ∀ i : β, i ≤ l.foldl max i := by
  induction l with
  | nil => intro i; exact le_refl i
  | cons b t ih =>
    intro i
    exact le_trans (le_max_left i b) (ih (max i b))

theorem mem_le_foldl_max {β : Type} [LinearOrder β] (l : List β) (a : β)
    (h : a ∈ l) : ∀ i : β, a ≤ l.foldl max i := by
  induction l with
  | nil => cases h
  | cons b t ih =>
    intro i
    rcases List.mem_cons.mp h with hb | ht
    · subst hb
      exact le_trans (le_max_right i a) (le_foldl_max t (max i a))
    · exact ih ht (max i b)

theorem foldl_max_le {β : Type} [LinearOrder β] (l : List β) (c : β) :
    ∀ i : β, i ≤ c → (∀ a ∈ l, a ≤ c) → l.foldl max i ≤ c := by
  induction l with
  | nil => intro i hi _; exact hi
  | cons b t ih =>
    intro i hi h
    exact ih (max i b) (max_le hi (h b (List.mem_cons_self b t)))
      (fun a ha => h a (List.mem_cons_of_mem b ha))

theorem foldl_max_init_max {β : Type} [LinearOrder β] (B : List β) :
    ∀ i j : β, B.foldl max (max i j) = max i (B.foldl max j) := by
  induction B with
  | nil => intro i j; rfl
  | cons b t ih =>
    intro i j
    show t.foldl max (max (max i j) b) = max i (t.foldl max (max j b))
    rw [max_assoc, ih i (max j b)]

/-- A maximum reduction splits over concatenation of the element list. -/
theorem foldl_max_append {β : Type} [LinearOrder β] (i : β) (A B : List β) :
    (A ++ B).foldl max i = max (A.foldl max i) (B.foldl max i) := by
  rw [List.foldl_append]
  have h1 : A.foldl max i = max (A.foldl max i) i :=
    (max_eq_left (le_foldl_max A i)).symm
  calc B.foldl max (A.foldl max i)
      = B.foldl max (max (A.foldl max i) i) := by rw [← h1]
    _ = max (A.foldl max i) (B.foldl max i) := foldl_max_init_max B _ i

/-- Exact value of a maximum reduction when a greatest element is present. -/
theorem foldl_max_eq_of_mem {β : Type} [LinearOrder β] (l : List β) (c i : β)
    (hmem : c ∈ l) (hi : i ≤ c) (hub : ∀ a ∈ l, a ≤ c) : l.foldl max i = c :=
  le_antisymm (foldl_max_le l c i hi hub) (mem_le_foldl_max l c hmem i)

end TfUtils

namespace TfUtils

/-!
Lemmas about NaN masking in the dense floating sum and count.
-/

theorem EFloat.add_fin_zero (v : EFloat) : v.add (.fin 0) = v := by
  cases v <;> simp [EFloat.add]

theorem EFloat.isNaN_false_of_ne (v : EFloat) (h : ¬v.isNaN = true) :
    v.isNaN = false := by
  cases hv : v.isNaN
  · rfl
  · exact absurd hv h

theorem mask_ones_like (x : List EFloat) :
    ((ones_like_masked x).map fun v => if v.isNaN then EFloat.fin 0 else v)
      = ones_like_masked x := by
  rw [ones_like_masked, List.map_map]
  congr 1
  funext v
  cases v <;> rfl

theorem count_dense_float_aux (x : List EFloat) : ∀ a : ℚ,
    (ones_like_masked x).foldl EFloat.add (.fin a)
      = .fin (a + ((x.countP fun v => !v.isNaN : ℕ) : ℚ)) := by
  induction x with
  | nil => intro a; simp [ones_like_masked]
  | cons v t ih =>
    intro a
    by_cases hv : v.isNaN = true
    · have hho : ones_like_masked (v :: t) = EFloat.fin 0 :: ones_like_masked t := by
        simp [ones_like_masked, hv]
      have hcount : (v :: t).countP (fun v => !v.isNaN)
          = t.countP (fun v => !v.isNaN) := by
        simp [List.countP_cons, hv]
      rw [hho, List.foldl_cons, EFloat.add_fin_zero, hcount]
      exact ih a
    · have hv' := EFloat.isNaN_false_of_ne v hv
      have hho : ones_like_masked (v :: t) = EFloat.fin 1 :: ones_like_masked t := by
        simp [ones_like_masked, hv']
      have hcount : (v :: t).countP (fun v => !v.isNaN)
          = t.countP (fun v => !v.isNaN) + 1 := by
        simp [List.countP_cons, hv']
      have hadd : (EFloat.fin a).add (.fin 1) = .fin (a + 1) := rfl
      rw [hho, List.foldl_cons, hadd, ih (a + 1), hcount]
      congr 1
      push_cast
      ring

theorem sum_dense_float_filter_aux (x : List EFloat) : ∀ acc : EFloat,
    ((x.map fun v => if v.isNaN then EFloat.fin 0 else v).foldl EFloat.add acc)
      = (((x.filter fun v => !v.isNaN).map
            fun v => if v.isNaN then EFloat.fin 0 else v).foldl EFloat.add acc) := by
  induction x with
  | nil => intro acc; rfl
  | cons v t ih =>
    intro acc
    by_cases hv : v.isNaN = true
    · simp [hv, List.filter_cons, EFloat.add_fin_zero, ih acc]
    · have hv' := EFloat.isNaN_false_of_ne v hv
      simp [hv', List.filter_cons, ih]

/-- C4: the dense floating Count Reducer counts exactly the non-NaN elements,
the dense floating Sum Reducer ignores NaN entries (it equals the sum of the
NaN-filtered batch), and on the batch [1, NaN, 3] with full collapse the
count is 2, the sum is 4, and the Mean/Variance Reducer output mean is 2. -/
theorem C4_nan_exclusion_count_sum_mean :
    (∀ x : List EFloat,
      reduce_batch_count_dense_float x
        = .fin ((x.countP fun v => !v.isNaN : ℕ) : ℚ)) ∧
    (∀ x : List EFloat,
      reduce_batch_sum_dense_float x
        = reduce_batch_sum_dense_float (x.filter fun v => !v.isNaN)) ∧
    reduce_batch_count_dense_float [.fin 1, .nan, .fin 3] = .fin 2 ∧
    reduce_batch_sum_dense_float [.fin 1, .nan, .fin 3] = .fin 4 ∧
    (reduce_batch_count_mean_and_var_dense_float [.fin 1, .nan, .fin 3]).2.1
        = .fin 2 := by
  refine ⟨?_, ?_, ?_, ?_, ?_⟩
  · intro x
    have h := count_dense_float_aux x 0
    rw [zero_add] at h
    rw [reduce_batch_count_dense_float, reduce_batch_sum_dense_float,
      mask_ones_like]
    exact h
  · intro x
    exact sum_dense_float_filter_aux x (.fin 0)
  · norm_num [reduce_batch_count_dense_float, reduce_batch_sum_dense_float,
      ones_like_masked, EFloat.isNaN, EFloat.add]
  · norm_num [reduce_batch_sum_dense_float, EFloat.isNaN, EFloat.add]
  · norm_num [reduce_batch_count_mean_and_var_dense_float,
      reduce_batch_count_dense_float, reduce_batch_sum_dense_float,
      ones_like_masked, EFloat.isNaN, EFloat.add, EFloat.div]

end TfUtils

namespace TfUtils

/-!
Vocabulary reduction (`reduce_batch_vocabulary` and
`_reduce_vocabulary_inputs` in `tf_utils.py`).  Batches are flat lists;
`assert_same_shape` degenerates to a length check on flat batches.
-/

/-- The three vocabulary ordering strategies of `VocabOrderingType`. -/
inductive VocabOrderingType where
  | FREQUENCY
  | WEIGHTED_FREQUENCY
  | WEIGHTED_MUTUAL_INFORMATION
deriving DecidableEq

/-- Helper of `tf.unique_with_counts`: append a value to the accumulated
unique list unless it is already present. -/
def insertUnique {α : Type} [DecidableEq α] (l : List α) (a : α) : List α :=
  if a ∈ l then l else l ++ [a]

/-- The `y` output of `tf.unique_with_counts`: unique values of the batch in
order of first occurrence. -/
def uniqueValues {α : Type} [DecidableEq α] (x : List α) : List α :=
  x.foldl insertUnique []

/-- The `idx` output of `tf.unique_with_counts`: for each element of the
batch, the index of its value in `uniqueValues`. -/
def unique_with_counts_idx {α : Type} [DecidableEq α] (x : List α) : List Nat :=
  x.map fun a => (uniqueValues x).findIdx fun b => decide (b = a)

/-- The `count` output of `tf.unique_with_counts`: per unique value, the
number of occurrences in the batch. -/
def unique_with_counts_count {α : Type} [DecidableEq α] (x : List α) : List Nat :=
  (uniqueValues x).map fun u => x.countP fun b => decide (b = u)

/-- Model of `tf.math.unsorted_segment_sum`: per segment id below
`num_segments`, the sum of the data entries carrying that id. -/
def unsorted_segment_sum (data : List ℚ) (segment_ids : List Nat)
    (num_segments : Nat) : List ℚ :=
  (List.range num_segments).map fun s =>
    ((data.zip segment_ids).filterMap fun p =>
      if p.2 = s then some p.1 else none).sum

/-- Model of `assert_same_shape` for flat batches: the shapes agree exactly
when the lengths agree; the checked first argument is returned. -/
def assert_same_shape {α β : Type} (x : List α) (y : List β) :
    Except String (List α) :=
  if x.length = y.length then Except.ok x else Except.error "assert_same_shape"

/-- `_reduce_vocabulary_inputs`: unique values with summed weights; when
labels are supplied, additionally validates that every label is in {0,1}
(the two runtime assertions on `reduce_max` and `reduce_min` of the labels)
and computes positive-label weight sums and raw counts.  Without labels the
positive-weight and count outputs are None. -/
def _reduce_vocabulary_inputs {α : Type} [DecidableEq α] (x : List α)
    (weights : List ℚ) (labels : Option (List Int)) :
    Except String
      (List α × Option (List ℚ) × Option (List ℚ) × Option (List Nat)) :=
  let y := uniqueValues x
  let summed_weights :=
    unsorted_segment_sum weights (unique_with_counts_idx x) y.length
  match labels with
  | none => Except.ok (y, some summed_weights, none, none)
  | some ls =>
    if reduce_max_int int64_lowest ls ≤ 1 ∧ 0 ≤ reduce_min_int int64_highest ls then
      let positive_weights := (ls.zip weights).map fun p => (p.1 : ℚ) * p.2
      let summed_positive_weights :=
        unsorted_segment_sum positive_weights (unique_with_counts_idx x) y.length
      Except.ok (y, some summed_weights, some summed_positive_weights,
        some (unique_with_counts_count x))
    else Except.error "assertion failed: labels must be in the range 0 1"

/-- The shared tail of `reduce_batch_vocabulary` after the
mutual-information branch: `x = assert_same_shape(x, weights)` followed by
`_reduce_vocabulary_inputs`. -/
def vocab_tail {α : Type} [DecidableEq α] (x : List α) (ws : List ℚ)
    (labels : Option (List Int)) :
    Except String
      (List α × Option (List ℚ) × Option (List ℚ) × Option (List Nat)) :=
  match assert_same_shape x ws with
  | Except.error e => Except.error e
  | Except.ok x1 => _reduce_vocabulary_inputs x1 ws labels

/-- `reduce_batch_vocabulary`.  FREQUENCY returns the flattened batch with
all other fields None.  WEIGHTED_MUTUAL_INFORMATION requires labels
(`assert_type` fails on an absent labels tensor), checks their shape against
`x`, and defaults absent weights to `tf.ones_like(labels)` (int64 ones, cast
when used).  All non-FREQUENCY paths then check `x` against the weights —
with absent weights this access fails, as in the source — and reduce. -/
def reduce_batch_vocabulary {α : Type} [DecidableEq α] (x : List α)
    (vocab_ordering_type : VocabOrderingType)
    (weights : Option (List ℚ)) (labels : Option (List Int)) :
    Except String
      (List α × Option (List ℚ) × Option (List ℚ) × Option (List Nat)) :=
  if vocab_ordering_type = VocabOrderingType.FREQUENCY then
    Except.ok (x, none, none, none)
  else if vocab_ordering_type = VocabOrderingType.WEIGHTED_MUTUAL_INFORMATION then
    match labels with
    | none => Except.error "assert_type: labels is not an int64 tensor"
    | some ls =>
      match assert_same_shape x ls with
      | Except.error e => Except.error e
      | Except.ok x1 =>
        let ws := match weights with
          | none => ls.map fun _ => ((1 : Int) : ℚ)
          | some ws => ws
        vocab_tail x1 ws (some ls)
  else
    match weights with
    | none => Except.error "assert_same_shape: weights is absent"
    | some ws => vocab_tail x ws labels

end TfUtils

namespace TfUtils

/-!
Properties of the unique-value extraction and the grouped summation.
-/

theorem nodup_foldl_insertUnique {α : Type} [DecidableEq α] (x : List α) :
    ∀ acc : List α, acc.Nodup → (x.foldl insertUnique acc).Nodup := by
  induction x with
  | nil => intro acc h; exact h
  | cons v t ih =>
    intro acc h
    apply ih
    unfold insertUnique
    by_cases hv : v ∈ acc
    · simpa [hv] using h
    · rw [if_neg hv, List.nodup_append]
      exact ⟨h, List.nodup_singleton v,
        fun a ha hav => hv ((List.mem_singleton.mp hav) ▸ ha)⟩

theorem nodup_uniqueValues {α : Type} [DecidableEq α] (x : List α) :
    (uniqueValues x).Nodup :=
  nodup_foldl_insertUnique x [] List.nodup_nil

theorem findIdx_of_get {α : Type} [DecidableEq α] (l : List α) (hn : l.Nodup) :
    ∀ (s : Nat) (hs : s < l.length),
      l.findIdx (fun b => decide (b = l.get ⟨s, hs⟩)) = s := by
  induction l with
  | nil => intro s hs; exact absurd hs (Nat.not_lt_zero s)
  | cons b t ih =>
    intro s hs
    cases s with
    | zero => simp [List.findIdx_cons]
    | succ s =>
      have hbt : b ∉ t := (List.nodup_cons.mp hn).1
      have hnt : t.Nodup := (List.nodup_cons.mp hn).2
      have hs' : s < t.length := Nat.lt_of_succ_lt_succ hs
      have hget : (b :: t).get ⟨s + 1, hs⟩ = t.get ⟨s, hs'⟩ := rfl
      have hne : ¬(b = t.get ⟨s, hs'⟩) := by
        intro he
        exact hbt (he ▸ List.get_mem t s hs')
      rw [hget, List.findIdx_cons, decide_eq_false hne]
      simpa using ih hnt s hs'

theorem findIdx_eq_iff_get {α : Type} [DecidableEq α] (l : List α)
    (hn : l.Nodup) (a : α) (s : Nat) (hs : s < l.length) :
    (l.findIdx (fun b => decide (b = a)) = s) ↔ l.get ⟨s, hs⟩ = a := by
  constructor
  · intro h
    have hlt : l.findIdx (fun b => decide (b = a)) < l.length := by
      rw [h]; exact hs
    have hp := @List.findIdx_get _ (fun b => decide (b = a)) l hlt
    rw [decide_eq_true_eq] at hp
    subst h
    exact hp
  · intro h
    subst h
    exact findIdx_of_get l hn s hs

/-- The per-unique-value weight sum described by the spec: the sum of the
weights of all occurrences of `u` in the batch. -/
def weight_sum_per_value {α : Type} [DecidableEq α] (x : List α) (w : List ℚ)
    (u : α) : ℚ :=
  ((w.zip x).filterMap fun p => if p.2 = u then some p.1 else none).sum

/-- The grouped summation keyed by the unique-value group index computes, per
unique value, exactly the sum of the weights of its occurrences. -/
theorem segment_sum_eq_per_value {α : Type} [DecidableEq α] (x : List α)
    (w : List ℚ) :
    unsorted_segment_sum w (unique_with_counts_idx x) (uniqueValues x).length
      = (uniqueValues x).map (weight_sum_per_value x w) := by
  apply List.ext_get
  · simp [unsorted_segment_sum]
  · intro s h1 h2
    have hs : s < (uniqueValues x).length := by
      simpa [unsorted_segment_sum] using h1
    simp only [unsorted_segment_sum]
    rw [List.get_map, List.get_map, List.get_range]
    simp only [unique_with_counts_idx]
    rw [List.zip_map_right, List.filterMap_map]
    simp only [weight_sum_per_value]
    refine congrArg List.sum ?_
    have hfun : ((fun p : ℚ × Nat => if p.2 = s then some p.1 else none) ∘
          Prod.map id fun a =>
            List.findIdx (fun b => decide (b = a)) (uniqueValues x))
        = fun p : ℚ × α =>
            if p.2 = (uniqueValues x).get ⟨s, hs⟩ then some p.1 else none := by
      funext p
      show (if List.findIdx (fun b => decide (b = p.2)) (uniqueValues x) = s
            then some p.1 else none)
          = if p.2 = (uniqueValues x).get ⟨s, hs⟩ then some p.1 else none
      by_cases hc : p.2 = (uniqueValues x).get ⟨s, hs⟩
      · have hidx : (uniqueValues x).findIdx (fun b => decide (b = p.2)) = s :=
          (findIdx_eq_iff_get (uniqueValues x) (nodup_uniqueValues x) p.2 s
            hs).mpr hc.symm
        rw [if_pos hidx, if_pos hc]
      · have hidx : ¬((uniqueValues x).findIdx (fun b => decide (b = p.2)) = s) :=
          fun h =>
            hc ((findIdx_eq_iff_get (uniqueValues x) (nodup_uniqueValues x) p.2 s
              hs).mp h).symm
        rw [if_neg hidx, if_neg hc]
    rw [hfun]

end TfUtils

namespace TfUtils

/-!
Characterizations of integer maximum/minimum reductions, used for the label
domain assertions.
-/

theorem foldl_max_le_iff (l : List Int) (i c : Int) :
    l.foldl max i ≤ c ↔ i ≤ c ∧ ∀ a ∈ l, a ≤ c := by
  constructor
  · intro h
    exact ⟨le_trans (le_foldl_max l i) h,
      fun a ha => le_trans (mem_le_foldl_max l a ha i) h⟩
  · intro h
    exact foldl_max_le l c i h.1 h.2

theorem foldl_min_le_init (l : List Int) : ∀ i : Int, l.foldl min i ≤ i := by
  induction l with
  | nil => intro i; exact le_refl i
  | cons b t ih =>
    intro i
    exact le_trans (ih (min i b)) (min_le_left i b)

theorem foldl_min_le_mem (l : List Int) (a : Int) (h : a ∈ l) :
    ∀ i : Int, l.foldl min i ≤ a := by
  induction l with
  | nil => cases h
  | cons b t ih =>
    intro i
    rcases List.mem_cons.mp h with hb | ht
    · subst hb
      exact le_trans (foldl_min_le_init t (min i a)) (min_le_right i a)
    · exact ih ht (min i b)

theorem le_foldl_min (l : List Int) (c : Int) :
    ∀ i : Int, c ≤ i → (∀ a ∈ l, c ≤ a) → c ≤ l.foldl min i := by
  induction l with
  | nil => intro i hi _; exact hi
  | cons b t ih =>
    intro i hi h
    exact ih (min i b) (le_min hi (h b (List.mem_cons_self b t)))
      (fun a ha => h a (List.mem_cons_of_mem b ha))

theorem le_foldl_min_iff (l : List Int) (i c : Int) :
    c ≤ l.foldl min i ↔ c ≤ i ∧ ∀ a ∈ l, c ≤ a := by
  constructor
  · intro h
    exact ⟨le_trans h (foldl_min_le_init l i),
      fun a ha => le_trans h (foldl_min_le_mem l a ha i)⟩
  · intro h
    exact le_foldl_min l c i h.1 h.2

/-- C2 (amended): WEIGHTED_FREQUENCY reduction with weights supplied and no
labels returns the unique values of the batch (in first-occurrence order)
and, per unique value, the sum of the weights of all its occurrences; the
positive-weight field and the raw-count field are both None (raw counts are
populated only when labels are supplied). -/
theorem C2_weighted_frequency_reduction (α : Type) [DecidableEq α]
    (x : List α) (w : List ℚ) (h : x.length = w.length) :
    reduce_batch_vocabulary x VocabOrderingType.WEIGHTED_FREQUENCY (some w) none
      = Except.ok (uniqueValues x,
          some ((uniqueValues x).map (weight_sum_per_value x w)),
          none, none) := by
  rw [reduce_batch_vocabulary]
  rw [if_neg (by decide), if_neg (by decide)]
  show vocab_tail x w none = _
  rw [vocab_tail, assert_same_shape, if_pos h]
  show _reduce_vocabulary_inputs x w none = _
  rw [_reduce_vocabulary_inputs]
  rw [segment_sum_eq_per_value]

/-- Witness for C2: on the batch [0, 1, 0] with weights [1, 2, 3] the
reduction returns unique values [0, 1], weight sums [4, 2], and None for
both the positive-weight and count fields. -/
theorem C2_weighted_frequency_reduction_witness :
    reduce_batch_vocabulary [0, 1, 0] VocabOrderingType.WEIGHTED_FREQUENCY
        (some [1, 2, 3]) none
      = Except.ok (([0, 1] : List ℕ), some [4, 2], none, none) := by
  have h := C2_weighted_frequency_reduction ℕ [0, 1, 0] [1, 2, 3] rfl
  rw [h]
  norm_num [uniqueValues, insertUnique, weight_sum_per_value,
    List.filterMap_cons, List.filterMap_nil, List.sum_cons, List.sum_nil]

/-- Counterexample for C2 as stated: on exactly the batch [a, b, a] with
weights [1, 2, 3] (a = 0, b = 1) the raw-occurrence-count field of the
result is None, not the counts [2, 1] the claim asserts. -/
theorem C2_counterexample :
    (reduce_batch_vocabulary [0, 1, 0] VocabOrderingType.WEIGHTED_FREQUENCY
        (some [1, 2, 3]) none).toOption.map
          (fun r : List ℕ × Option (List ℚ) × Option (List ℚ) × Option (List Nat) =>
            r.2.2.2)
      = some none ∧
    (none : Option (List Nat)) ≠ some [2, 1] := by
  constructor
  · rfl
  · simp

end TfUtils

namespace TfUtils

/-- Counterexample for C3 as stated: WEIGHTED_FREQUENCY reduction of the
batch [0] with weights absent fails at the shape assertion against the
absent weights instead of succeeding with a uniform weight of 1 (which
would return weight sum [1]). -/
theorem C3_counterexample :
    reduce_batch_vocabulary ([0] : List ℕ) VocabOrderingType.WEIGHTED_FREQUENCY
        none none
      = Except.error "assert_same_shape: weights is absent" ∧
    (Except.error "assert_same_shape: weights is absent"
        : Except String
            (List ℕ × Option (List ℚ) × Option (List ℚ) × Option (List Nat)))
      ≠ Except.ok ([0], some [1], none, none) := by
  constructor
  · rfl
  · simp

/-- C3 (amended): with weights absent, WEIGHTED_FREQUENCY reduction fails
(the shape assertion dereferences the absent weights); only under
WEIGHTED_MUTUAL_INFORMATION does an absent weights input default to a
uniform weight of 1 per element (via ones over the labels). -/
theorem C3_weights_default_amended (α : Type) [DecidableEq α] :
    (∀ x : List α,
      reduce_batch_vocabulary x VocabOrderingType.WEIGHTED_FREQUENCY none none
        = Except.error "assert_same_shape: weights is absent") ∧
    (∀ (x : List α) (ls : List Int), x.length = ls.length →
      reduce_batch_vocabulary x VocabOrderingType.WEIGHTED_MUTUAL_INFORMATION
          none (some ls)
        = reduce_batch_vocabulary x VocabOrderingType.WEIGHTED_MUTUAL_INFORMATION
            (some (ls.map fun _ => (1 : ℚ))) (some ls)) := by
  constructor
  · intro x
    rfl
  · intro x ls h
    have hshape : assert_same_shape x ls = Except.ok x := by
      rw [assert_same_shape, if_pos h]
    have e1 : reduce_batch_vocabulary x
          VocabOrderingType.WEIGHTED_MUTUAL_INFORMATION none (some ls)
        = vocab_tail x (ls.map fun _ => ((1 : Int) : ℚ)) (some ls) := by
      show (match assert_same_shape x ls with
        | Except.error e => Except.error e
        | Except.ok x1 => vocab_tail x1 (ls.map fun _ => ((1 : Int) : ℚ)) (some ls))
        = vocab_tail x (ls.map fun _ => ((1 : Int) : ℚ)) (some ls)
      rw [hshape]
    have e2 : reduce_batch_vocabulary x
          VocabOrderingType.WEIGHTED_MUTUAL_INFORMATION
          (some (ls.map fun _ => (1 : ℚ))) (some ls)
        = vocab_tail x (ls.map fun _ => (1 : ℚ)) (some ls) := by
      show (match assert_same_shape x ls with
        | Except.error e => Except.error e
        | Except.ok x1 => vocab_tail x1 (ls.map fun _ => (1 : ℚ)) (some ls))
        = vocab_tail x (ls.map fun _ => (1 : ℚ)) (some ls)
      rw [hshape]
    rw [e1, e2]
    have hw : (ls.map fun _ => ((1 : Int) : ℚ)) = ls.map fun _ => (1 : ℚ) := by
      simp
    rw [hw]

/-- Witness for C3: on the batch [0] the WEIGHTED_FREQUENCY call without
weights fails, and the WEIGHTED_MUTUAL_INFORMATION call without weights
equals the same call with explicit uniform weight 1. -/
theorem C3_weights_default_amended_witness :
    reduce_batch_vocabulary ([0] : List ℕ) VocabOrderingType.WEIGHTED_FREQUENCY
        none none
      = Except.error "assert_same_shape: weights is absent" ∧
    reduce_batch_vocabulary ([0] : List ℕ)
        VocabOrderingType.WEIGHTED_MUTUAL_INFORMATION none (some [1])
      = reduce_batch_vocabulary [0]
          VocabOrderingType.WEIGHTED_MUTUAL_INFORMATION
          (some ([1].map fun _ => (1 : ℚ))) (some [1]) :=
  ⟨(C3_weights_default_amended ℕ).1 [0],
   (C3_weights_default_amended ℕ).2 [0] [1] rfl⟩

/-- C7: under WEIGHTED_MUTUAL_INFORMATION (with defaulted weights and labels
of matching shape), evaluating the reduction produces the label-domain
assertion failure exactly when some label lies outside {0,1}; the two
runtime assertions are max(labels) <= 1 and min(labels) >= 0. -/
theorem C7_label_domain_validation (α : Type) [DecidableEq α] (x : List α)
    (ls : List Int) (h : x.length = ls.length) :
    (reduce_batch_vocabulary x VocabOrderingType.WEIGHTED_MUTUAL_INFORMATION
          none (some ls)
        = Except.error "assertion failed: labels must be in the range 0 1")
      ↔ ∃ l ∈ ls, l < 0 ∨ 1 < l := by
  have hshape : assert_same_shape x ls = Except.ok x := by
    rw [assert_same_shape, if_pos h]
  have e1 : reduce_batch_vocabulary x
        VocabOrderingType.WEIGHTED_MUTUAL_INFORMATION none (some ls)
      = vocab_tail x (ls.map fun _ => ((1 : Int) : ℚ)) (some ls) := by
    show (match assert_same_shape x ls with
      | Except.error e => Except.error e
      | Except.ok x1 => vocab_tail x1 (ls.map fun _ => ((1 : Int) : ℚ)) (some ls))
      = vocab_tail x (ls.map fun _ => ((1 : Int) : ℚ)) (some ls)
    rw [hshape]
  have hshape2 : assert_same_shape x (ls.map fun _ => ((1 : Int) : ℚ))
      = Except.ok x := by
    rw [assert_same_shape, if_pos]
    rw [List.length_map]
    exact h
  have e2 : vocab_tail x (ls.map fun _ => ((1 : Int) : ℚ)) (some ls)
      = _reduce_vocabulary_inputs x (ls.map fun _ => ((1 : Int) : ℚ)) (some ls) := by
    rw [vocab_tail, hshape2]
  rw [e1, e2]
  rw [_reduce_vocabulary_inputs]
  by_cases hcond :
      reduce_max_int int64_lowest ls ≤ 1 ∧ 0 ≤ reduce_min_int int64_highest ls
  · rw [if_pos hcond]
    constructor
    · intro hcontra
      exact absurd hcontra (by simp)
    · intro hbad
      rcases hbad with ⟨l, hl, hout⟩
      rcases hout with hneg | hgt
      · have h0 : (0 : Int) ≤ l := by
          have := (le_foldl_min_iff ls int64_highest 0).mp hcond.2
          exact this.2 l hl
        exact absurd h0 (not_le.mpr hneg)
      · have h1 : l ≤ 1 := by
          have := (foldl_max_le_iff ls int64_lowest 1).mp hcond.1
          exact this.2 l hl
        exact absurd h1 (not_le.mpr hgt)
  · rw [if_neg hcond]
    constructor
    · intro _
      rw [not_and_or] at hcond
      rcases hcond with hmax | hmin
      · rw [reduce_max_int, foldl_max_le_iff, not_and_or] at hmax
        rcases hmax with hinit | hmem
        · exact absurd (by norm_num [int64_lowest]) hinit
        · push_neg at hmem
          rcases hmem with ⟨l, hl, hgt⟩
          exact ⟨l, hl, Or.inr hgt⟩
      · rw [reduce_min_int, le_foldl_min_iff, not_and_or] at hmin
        rcases hmin with hinit | hmem
        · exact absurd (by norm_num [int64_highest]) hinit
        · push_neg at hmem
          rcases hmem with ⟨l, hl, hlt⟩
          exact ⟨l, hl, Or.inl hlt⟩
    · intro _
      rfl

/-- Witness for C7: the batch [0] with label [2] evaluates to the
label-domain assertion failure. -/
theorem C7_label_domain_validation_witness :
    reduce_batch_vocabulary ([0] : List ℕ)
        VocabOrderingType.WEIGHTED_MUTUAL_INFORMATION none (some [2])
      = Except.error "assertion failed: labels must be in the range 0 1" :=
  (C7_label_domain_validation ℕ [0] [2] rfl).mpr
    ⟨2, List.mem_singleton_self 2, Or.inr (by norm_num)⟩

end TfUtils

namespace TfUtils

/-!
Min/Max reducer on floating batches (`reduce_batch_minus_min_and_max`,
`_sparse_minus_reduce_min_and_reduce_max`, `_inf_to_nan`).
-/

/-- `_inf_to_nan` on a floating tensor element:
`tf.where(tf.math.is_inf(t), t + nan, t)`. -/
def _inf_to_nan (v : EFloat) : EFloat := if v.isInfB then v.add .nan else v

/-- `reduce_batch_minus_min_and_max` on a dense floating batch with
`reduce_instance_dims = True`: a single max of the negated batch and a
single max of the batch, each post-processed by `_inf_to_nan`
(`assert_same_shape` on the two scalars is the identity). -/
def reduce_batch_minus_min_and_max_dense_float (x : List EFloat) :
    EFloat × EFloat :=
  (_inf_to_nan (reduce_max_float (x.map fun v => (EFloat.fin 0).sub v)),
   _inf_to_nan (reduce_max_float x))

/-- `tf.reduce_max(..., axis=0)` on a dense rank-2 floating batch of rows,
per column. -/
def reduce_max_axis0_float (rows : List (List EFloat)) (w : Nat) :
    List EFloat :=
  (List.range w).map fun c => reduce_max_float (rows.map fun r => r.getD c (.fin 0))

/-- `reduce_batch_minus_min_and_max` on a dense rank-2 floating batch with
`reduce_instance_dims = False`: per-column max of the negation and of the
batch, each post-processed elementwise by `_inf_to_nan`. -/
def reduce_batch_minus_min_and_max_dense_float_percol
    (rows : List (List EFloat)) (w : Nat) : List EFloat × List EFloat :=
  ((reduce_max_axis0_float (rows.map fun r => r.map fun v => (EFloat.fin 0).sub v) w).map
      _inf_to_nan,
   (reduce_max_axis0_float rows w).map _inf_to_nan)

/-- A rank-2 sparse floating tensor: (row, column) coordinates, one value
per coordinate, and the declared dense shape (rows, columns). -/
structure SparseTensor2F where
  indices : List (Nat × Nat)
  values : List EFloat
  dense_shape : Nat × Nat

/-- Values present in column `c` of a sparse floating tensor. -/
def sparse_col_values_f (x : SparseTensor2F) (c : Nat) : List EFloat :=
  (x.indices.zip x.values).filterMap fun p =>
    if p.1.2 = c then some p.2 else none

/-- `tf.sparse.reduce_max(sp_input, axis=0)` on floating values: per column,
the max of the present values; 0 when the column has no present values (the
behavior the source docstring documents and compensates for). -/
def sparse_reduce_max_axis0_f (x : SparseTensor2F) : List EFloat :=
  (List.range x.dense_shape.2).map fun c =>
    if sparse_col_values_f x c = [] then .fin 0
    else (sparse_col_values_f x c).foldl EFloat.maxi .ninf

/-- `reduce_batch_count` on a sparse tensor with
`reduce_instance_dims = False`: an indicator sparse tensor of int64 ones on
the same coordinates, summed per column. -/
def reduce_batch_count_sparse2_percol (x : SparseTensor2F) : List Int :=
  (List.range x.dense_shape.2).map fun c =>
    ((sparse_col_values_f x c).map fun _ => (1 : Int)).sum

/-- The sparse tensor `0 - x`: same coordinates, negated values. -/
def minus_sparse_f (x : SparseTensor2F) : SparseTensor2F :=
  ⟨x.indices, x.values.map fun v => (EFloat.fin 0).sub v, x.dense_shape⟩

/-- `_sparse_minus_reduce_min_and_reduce_max` on a floating sparse tensor:
per-column max of the negation and of the tensor, with every column whose
per-column count is zero overridden by the missing value, which is NaN for a
floating dtype (`tf.where(batch_has_no_values, fill(missing), result)`). -/
def _sparse_minus_reduce_min_and_reduce_max_f (x : SparseTensor2F) :
    List EFloat × List EFloat :=
  (List.zipWith (fun n v => if n = (0 : Int) then EFloat.nan else v)
     (reduce_batch_count_sparse2_percol x)
     (sparse_reduce_max_axis0_f (minus_sparse_f x)),
   List.zipWith (fun n v => if n = (0 : Int) then EFloat.nan else v)
     (reduce_batch_count_sparse2_percol x)
     (sparse_reduce_max_axis0_f x))

/-- `reduce_batch_minus_min_and_max` on a floating sparse tensor with
`reduce_instance_dims = False`: the sparse helper followed by `_inf_to_nan`
on both outputs. -/
def reduce_batch_minus_min_and_max_sparse_float_percol (x : SparseTensor2F) :
    List EFloat × List EFloat :=
  ((_sparse_minus_reduce_min_and_reduce_max_f x).1.map _inf_to_nan,
   (_sparse_minus_reduce_min_and_reduce_max_f x).2.map _inf_to_nan)

/-- A rank-2 sparse integer tensor. -/
structure SparseTensor2I where
  indices : List (Nat × Nat)
  values : List Int
  dense_shape : Nat × Nat

/-- Values present in column `c` of a sparse integer tensor. -/
def sparse_col_values_i (x : SparseTensor2I) (c : Nat) : List Int :=
  (x.indices.zip x.values).filterMap fun p =>
    if p.1.2 = c then some p.2 else none

/-- `tf.sparse.reduce_max(sp_input, axis=0)` on int64 values: per column,
the max of the present values; 0 when the column has no present values. -/
def sparse_reduce_max_axis0_i (x : SparseTensor2I) : List Int :=
  (List.range x.dense_shape.2).map fun c =>
    if sparse_col_values_i x c = [] then 0
    else (sparse_col_values_i x c).foldl max int64_lowest

/-- Per-column present-entry count of a sparse integer tensor. -/
def reduce_batch_count_sparse2I_percol (x : SparseTensor2I) : List Int :=
  (List.range x.dense_shape.2).map fun c =>
    ((sparse_col_values_i x c).map fun _ => (1 : Int)).sum

/-- The sparse integer tensor `0 - x`, with int64 wrapping. -/
def minus_sparse_i (x : SparseTensor2I) : SparseTensor2I :=
  ⟨x.indices, x.values.map fun v => wrap 64 (0 - v), x.dense_shape⟩

/-- `_sparse_minus_reduce_min_and_reduce_max` on an integer sparse tensor
whose dtype has minimum `dtype_min`: empty columns are overridden by the
missing value `dtype_min + 1`. -/
def _sparse_minus_reduce_min_and_reduce_max_i (dtype_min : Int)
    (x : SparseTensor2I) : List Int × List Int :=
  (List.zipWith (fun n v => if n = (0 : Int) then dtype_min + 1 else v)
     (reduce_batch_count_sparse2I_percol x)
     (sparse_reduce_max_axis0_i (minus_sparse_i x)),
   List.zipWith (fun n v => if n = (0 : Int) then dtype_min + 1 else v)
     (reduce_batch_count_sparse2I_percol x)
     (sparse_reduce_max_axis0_i x))

/-- `reduce_batch_minus_min_and_max` on an integer sparse tensor with
`reduce_instance_dims = False`: `_inf_to_nan` is the identity on a
non-floating dtype, so the helper output is returned unchanged. -/
def reduce_batch_minus_min_and_max_sparse_int_percol (dtype_min : Int)
    (x : SparseTensor2I) : List Int × List Int :=
  _sparse_minus_reduce_min_and_reduce_max_i dtype_min x

end TfUtils

namespace TfUtils

/-!
Lemmas for the sparse per-column Min/Max reducer.
-/

theorem zipWith_range_map {β γ δ : Type} (f : β → γ → δ) (g : Nat → β)
    (h : Nat → γ) (n : Nat) :
    List.zipWith f ((List.range n).map g) ((List.range n).map h)
      = (List.range n).map fun c => f (g c) (h c) := by
  rw [List.zipWith_map, List.zipWith_same]

theorem get?_range_map {β : Type} (F : Nat → β) (n c : Nat) (hc : c < n) :
    ((List.range n).map F).get? c = some (F c) := by
  rw [List.get?_map, List.get?_range hc]
  rfl

theorem inf_to_nan_not_inf (v : EFloat) : (_inf_to_nan v).isInfB = false := by
  cases v <;> rfl

theorem inf_to_nan_nan : _inf_to_nan .nan = .nan := rfl

theorem sparse_col_values_f_empty (x : SparseTensor2F) (c : Nat)
    (h : ∀ p ∈ x.indices, p.2 ≠ c) : sparse_col_values_f x c = [] := by
  rw [sparse_col_values_f, List.filterMap_eq_nil]
  intro p hp
  have hi : p.1 ∈ x.indices := (List.mem_zip hp).1
  rw [if_neg (h p.1 hi)]

theorem sparse_col_values_i_empty (x : SparseTensor2I) (c : Nat)
    (h : ∀ p ∈ x.indices, p.2 ≠ c) : sparse_col_values_i x c = [] := by
  rw [sparse_col_values_i, List.filterMap_eq_nil]
  intro p hp
  have hi : p.1 ∈ x.indices := (List.mem_zip hp).1
  rw [if_neg (h p.1 hi)]

/-- C5: for a sparse batch with an entirely empty column (no coordinates in
that column), the per-column Min/Max reducer writes the missing sentinel —
NaN for a floating dtype, dtype minimum + 1 for an integer dtype — into
both the negated-min and the max field of that column, the emptiness being
detected through the per-column count. -/
theorem C5_sparse_empty_column_sentinel :
    (∀ (x : SparseTensor2F) (c : Nat), c < x.dense_shape.2 →
      (∀ p ∈ x.indices, p.2 ≠ c) →
      ((reduce_batch_minus_min_and_max_sparse_float_percol x).1.get? c
          = some EFloat.nan ∧
       (reduce_batch_minus_min_and_max_sparse_float_percol x).2.get? c
          = some EFloat.nan)) ∧
    (∀ (dtype_min : Int) (x : SparseTensor2I) (c : Nat), c < x.dense_shape.2 →
      (∀ p ∈ x.indices, p.2 ≠ c) →
      ((reduce_batch_minus_min_and_max_sparse_int_percol dtype_min x).1.get? c
          = some (dtype_min + 1) ∧
       (reduce_batch_minus_min_and_max_sparse_int_percol dtype_min x).2.get? c
          = some (dtype_min + 1))) := by
  constructor
  · intro x c hc hemp
    have hcol : sparse_col_values_f x c = [] := sparse_col_values_f_empty x c hemp
    constructor <;>
    · simp only [reduce_batch_minus_min_and_max_sparse_float_percol,
        _sparse_minus_reduce_min_and_reduce_max_f,
        reduce_batch_count_sparse2_percol, sparse_reduce_max_axis0_f,
        minus_sparse_f, zipWith_range_map, List.map_map]
      rw [get?_range_map _ _ c hc]
      simp [Function.comp, hcol, inf_to_nan_nan]
  · intro dtype_min x c hc hemp
    have hcol : sparse_col_values_i x c = [] := sparse_col_values_i_empty x c hemp
    constructor <;>
    · simp only [reduce_batch_minus_min_and_max_sparse_int_percol,
        _sparse_minus_reduce_min_and_reduce_max_i,
        reduce_batch_count_sparse2I_percol, sparse_reduce_max_axis0_i,
        minus_sparse_i, zipWith_range_map]
      rw [get?_range_map _ _ c hc]
      simp [hcol]

/-- Witness for C5: the 1-by-2 sparse batch with a single entry at (0, 0)
has column 1 empty; both Min/Max output fields at column 1 are NaN in the
floating case and dtype minimum + 1 = -9223372036854775807 in the int64
case. -/
theorem C5_sparse_empty_column_sentinel_witness :
    ((reduce_batch_minus_min_and_max_sparse_float_percol
        ⟨[(0, 0)], [.fin 5], (1, 2)⟩).1.get? 1 = some EFloat.nan ∧
     (reduce_batch_minus_min_and_max_sparse_float_percol
        ⟨[(0, 0)], [.fin 5], (1, 2)⟩).2.get? 1 = some EFloat.nan) ∧
    ((reduce_batch_minus_min_and_max_sparse_int_percol (-(2 ^ 63))
        ⟨[(0, 0)], [7], (1, 2)⟩).1.get? 1 = some (-(2 ^ 63) + 1) ∧
     (reduce_batch_minus_min_and_max_sparse_int_percol (-(2 ^ 63))
        ⟨[(0, 0)], [7], (1, 2)⟩).2.get? 1 = some (-(2 ^ 63) + 1)) :=
  ⟨C5_sparse_empty_column_sentinel.1 ⟨[(0, 0)], [.fin 5], (1, 2)⟩ 1
      (by decide) (by decide),
   C5_sparse_empty_column_sentinel.2 (-(2 ^ 63)) ⟨[(0, 0)], [7], (1, 2)⟩ 1
      (by decide) (by decide)⟩

/-- C9: for floating inputs in both reduction modes (dense collapsed, dense
per-column, sparse per-column), no output field of the Min/Max reducer is an
infinite value: `_inf_to_nan` remaps every infinity to NaN. -/
theorem C9_infinities_remapped_to_nan :
    (∀ x : List EFloat,
      (reduce_batch_minus_min_and_max_dense_float x).1.isInfB = false ∧
      (reduce_batch_minus_min_and_max_dense_float x).2.isInfB = false) ∧
    (∀ (rows : List (List EFloat)) (w : Nat),
      ((reduce_batch_minus_min_and_max_dense_float_percol rows w).1.all
          fun v => !v.isInfB) = true ∧
      ((reduce_batch_minus_min_and_max_dense_float_percol rows w).2.all
          fun v => !v.isInfB) = true) ∧
    (∀ x : SparseTensor2F,
      ((reduce_batch_minus_min_and_max_sparse_float_percol x).1.all
          fun v => !v.isInfB) = true ∧
      ((reduce_batch_minus_min_and_max_sparse_float_percol x).2.all
          fun v => !v.isInfB) = true) := by
  have hmap : ∀ l : List EFloat,
      ((l.map _inf_to_nan).all fun v => !v.isInfB) = true := by
    intro l
    rw [List.all_map, List.all_eq_true]
    intro v hv
    simp [Function.comp, inf_to_nan_not_inf]
  refine ⟨?_, ?_, ?_⟩
  · intro x
    exact ⟨inf_to_nan_not_inf _, inf_to_nan_not_inf _⟩
  · intro rows w
    exact ⟨hmap _, hmap _⟩
  · intro x
    exact ⟨hmap _, hmap _⟩

end TfUtils

namespace TfUtils

/-!
Unsigned inputs to the Min/Max reducer, and the dtype flow of
`reduce_batch_minus_min_and_max`.
-/

/-- `reduce_batch_minus_min_and_max` on a dense uint8 batch with
`reduce_instance_dims = True`: the batch is first cast to int32 (exact, as
uint8 values fit in int32), then negated with int32 wrapping and
max-reduced; `_inf_to_nan` is the identity on the non-floating results. -/
def reduce_batch_minus_min_and_max_dense_uint8 (x : List Nat) : Int × Int :=
  (reduce_max_int int32_lowest
     ((x.map fun v : Nat => (v : Int)).map fun v => wrap 32 (0 - v)),
   reduce_max_int int32_lowest (x.map fun v : Nat => (v : Int)))

theorem wrap_eq_self (w : Nat) (n : Int) (hw : 1 ≤ w)
    (h1 : -(2 ^ (w - 1)) ≤ n) (h2 : n < 2 ^ (w - 1)) : wrap w n = n := by
  rw [wrap]
  have hpow : (2 : Int) ^ w = 2 ^ (w - 1) * 2 := by
    rw [← pow_succ]
    congr 1
    omega
  have h0 : 0 ≤ n + 2 ^ (w - 1) := by linarith
  have hlt : n + 2 ^ (w - 1) < 2 ^ w := by rw [hpow]; linarith
  rw [Int.emod_eq_of_lt h0 hlt]
  ring

theorem wrap32_eq_self (n : Int) (h1 : -(2 ^ 31) ≤ n) (h2 : n < 2 ^ 31) :
    wrap 32 n = n :=
  wrap_eq_self 32 n (by norm_num) h1 h2

/-- `reduce_batch_minus_min_and_max` on a dense uint16 batch with
`reduce_instance_dims = True`: uint16 is handled by the same branch as
uint8 — cast to int32 (exact, as uint16 values fit in int32), negated with
int32 wrapping, and max-reduced. -/
def reduce_batch_minus_min_and_max_dense_uint16 (x : List Nat) : Int × Int :=
  (reduce_max_int int32_lowest
     ((x.map fun v : Nat => (v : Int)).map fun v => wrap 32 (0 - v)),
   reduce_max_int int32_lowest (x.map fun v : Nat => (v : Int)))

theorem wrap32_neg_cast (v : Nat) (hv : (v : Int) < 2 ^ 31) :
    wrap 32 (0 - (v : Int)) = 0 - (v : Int) := by
  have hge : (0 : Int) ≤ (v : Int) := Int.ofNat_nonneg v
  have h31 : (0 : Int) < 2 ^ 31 := by norm_num
  apply wrap32_eq_self
  · linarith
  · linarith

/-- After the cast to int32, the negated-min/max reduction of a batch of
widened unsigned values bounded by `m < 2^31` that contains both 0 and `m`
is exactly (0, m): the negations are exact and the two maxima are attained. -/
theorem minus_min_and_max_int32_exact (x : List Nat) (m : Nat)
    (hub : ∀ v ∈ x, v ≤ m) (hm : (m : Int) < 2 ^ 31) (h0 : 0 ∈ x)
    (hmem : m ∈ x) :
    (reduce_max_int int32_lowest
       ((x.map fun v : Nat => (v : Int)).map fun v => wrap 32 (0 - v)),
     reduce_max_int int32_lowest (x.map fun v : Nat => (v : Int)))
      = (0, (m : Int)) := by
  have hlow : int32_lowest ≤ 0 := by norm_num [int32_lowest]
  have hwrap : ((x.map fun v : Nat => (v : Int)).map fun v => wrap 32 (0 - v))
      = x.map fun v : Nat => 0 - (v : Int) := by
    rw [List.map_map]
    apply List.map_congr_left
    intro v hv
    show wrap 32 (0 - (v : Int)) = 0 - (v : Int)
    apply wrap32_neg_cast
    have hvm : (v : Int) ≤ (m : Int) := by exact_mod_cast hub v hv
    linarith
  rw [hwrap]
  have hmax : reduce_max_int int32_lowest (x.map fun v : Nat => (v : Int))
      = (m : Int) := by
    rw [reduce_max_int]
    apply foldl_max_eq_of_mem
    · exact List.mem_map_of_mem (fun v : Nat => (v : Int)) hmem
    · have h0m : (0 : Int) ≤ (m : Int) := Int.ofNat_nonneg m
      linarith
    · intro a ha
      rcases List.mem_map.mp ha with ⟨v, hv, hva⟩
      have hvm : (v : Int) ≤ (m : Int) := by exact_mod_cast hub v hv
      omega
  have hmin : reduce_max_int int32_lowest (x.map fun v : Nat => 0 - (v : Int))
      = 0 := by
    rw [reduce_max_int]
    apply foldl_max_eq_of_mem
    · have h00 : (0 : Int) = 0 - ((0 : Nat) : Int) := by norm_num
      rw [h00]
      exact List.mem_map_of_mem (fun v : Nat => 0 - (v : Int)) h0
    · exact hlow
    · intro a ha
      rcases List.mem_map.mp ha with ⟨v, hv, hva⟩
      have hge : (0 : Int) ≤ (v : Int) := Int.ofNat_nonneg v
      omega
  rw [hmax, hmin]

/-- C6: on uint8 and uint16 batches the Min/Max reducer negates only after
widening to int32, so the int32 negation of every uint8 value (< 256) and
of every uint16 value (< 65536) is exact (no two's-complement wrap); a
uint8 batch containing both 0 and 255 yields negated-min = 0 and max = 255,
and a uint16 batch containing both 0 and 65535 yields (0, 65535). -/
theorem C6_uint_widened_before_negation :
    (∀ x : List Nat, (∀ v ∈ x, v < 256) →
      ∀ v ∈ x, wrap 32 (0 - (v : Int)) = 0 - (v : Int)) ∧
    (∀ x : List Nat, (∀ v ∈ x, v < 65536) →
      ∀ v ∈ x, wrap 32 (0 - (v : Int)) = 0 - (v : Int)) ∧
    (∀ x : List Nat, (∀ v ∈ x, v < 256) → 0 ∈ x → 255 ∈ x →
      reduce_batch_minus_min_and_max_dense_uint8 x = (0, 255)) ∧
    (∀ x : List Nat, (∀ v ∈ x, v < 65536) → 0 ∈ x → 65535 ∈ x →
      reduce_batch_minus_min_and_max_dense_uint16 x = (0, 65535)) := by
  refine ⟨?_, ?_, ?_, ?_⟩
  · intro x hub v hv
    apply wrap32_neg_cast
    have hlt : (v : Int) < 256 := by exact_mod_cast hub v hv
    linarith
  · intro x hub v hv
    apply wrap32_neg_cast
    have hlt : (v : Int) < 65536 := by exact_mod_cast hub v hv
    linarith
  · intro x hub h0 h255
    rw [reduce_batch_minus_min_and_max_dense_uint8]
    have h255' : ((255 : Nat) : Int) = 255 := rfl
    have h := minus_min_and_max_int32_exact x 255
      (fun v hv => Nat.lt_succ_iff.mp (hub v hv)) (by norm_num) h0 h255
    rw [h255'] at h
    exact h
  · intro x hub h0 h65535
    rw [reduce_batch_minus_min_and_max_dense_uint16]
    have h65535' : ((65535 : Nat) : Int) = 65535 := rfl
    have h := minus_min_and_max_int32_exact x 65535
      (fun v hv => Nat.lt_succ_iff.mp (hub v hv)) (by norm_num) h0 h65535
    rw [h65535'] at h
    exact h

/-- Witness for C6: the uint8 batch [0, 255] and the uint16 batch
[0, 65535] satisfy the bounds and map to (0, 255) and (0, 65535), and the
negation of 255 and of 65535 incurs no wrap. -/
theorem C6_uint_widened_before_negation_witness :
    wrap 32 (0 - ((255 : Nat) : Int)) = 0 - ((255 : Nat) : Int) ∧
    wrap 32 (0 - ((65535 : Nat) : Int)) = 0 - ((65535 : Nat) : Int) ∧
    reduce_batch_minus_min_and_max_dense_uint8 [0, 255] = (0, 255) ∧
    reduce_batch_minus_min_and_max_dense_uint16 [0, 65535] = (0, 65535) :=
  ⟨C6_uint_widened_before_negation.1 [0, 255] (by decide) 255 (by decide),
   C6_uint_widened_before_negation.2.1 [0, 65535] (by decide) 65535 (by decide),
   C6_uint_widened_before_negation.2.2.1 [0, 255] (by decide) (by decide)
     (by decide),
   C6_uint_widened_before_negation.2.2.2 [0, 65535] (by decide) (by decide)
     (by decide)⟩

/-- Tensor element types relevant to the Min/Max reducer. -/
inductive DType where
  | float32
  | float64
  | int32
  | int64
  | uint8
  | uint16
  | uint32
  | uint64
deriving DecidableEq

/-- Whether a dtype is floating. -/
def DType.is_floating : DType → Bool
  | .float32 => true
  | .float64 => true
  | _ => false

/-- Dtype of `_inf_to_nan tensor output_dtype`: the floating branch builds
`tf.where(is_inf(t), t + nan, t)`, whose dtype is the tensor dtype, and the
non-floating branch returns the tensor unchanged — so the tensor dtype is
kept in both cases and `output_dtype` is only read, never applied. -/
def _inf_to_nan_dtype (tensor_dtype : DType) : DType := tensor_dtype

/-- The dtype flow of `reduce_batch_minus_min_and_max`: `output_dtype`
records the input dtype, uint8/uint16 inputs are cast to int32 before the
reductions, uint32/uint64 raise TypeError, and the two results pass through
`_inf_to_nan` without being cast back to `output_dtype`. -/
def reduce_batch_minus_min_and_max_dtype (d : DType) :
    Except String (DType × DType) :=
  if d = DType.uint8 ∨ d = DType.uint16 then
    Except.ok (_inf_to_nan_dtype DType.int32, _inf_to_nan_dtype DType.int32)
  else if d = DType.uint32 ∨ d = DType.uint64 then
    Except.error "Tensor type is not supported"
  else
    Except.ok (_inf_to_nan_dtype d, _inf_to_nan_dtype d)

/-- C10: for uint8 and uint16 inputs the Min/Max reducer returns both
fields with dtype int32, not the input dtype: the values are widened before
reduction and never cast back, and the value-level output can indeed fall
outside the uint8 range (negated-min of [255] is -255 < 0). -/
theorem C10_uint_results_stay_int32 :
    reduce_batch_minus_min_and_max_dtype DType.uint8
        = Except.ok (DType.int32, DType.int32) ∧
    reduce_batch_minus_min_and_max_dtype DType.uint16
        = Except.ok (DType.int32, DType.int32) ∧
    DType.int32 ≠ DType.uint8 ∧
    DType.int32 ≠ DType.uint16 ∧
    reduce_batch_minus_min_and_max_dense_uint8 [255] = (-255, 255) ∧
    (-255 : Int) < 0 := by
  refine ⟨rfl, rfl, by decide, by decide, ?_, by decide⟩
  decide

end TfUtils

namespace TfUtils

/-!
Mean/variance on sparse batches in per-column mode
(`reduce_batch_count_mean_and_var`, sparse branch).
-/

/-- A sparse tensor of arbitrary rank: one (multi-dimensional) coordinate
list per value and a declared dense shape whose length is the rank. -/
structure SparseTensorN where
  indices : List (List Nat)
  values : List EFloat
  dense_shape : List Nat

/-- The column (second coordinate) of a sparse index row, `x.indices[:, 1]`. -/
def sparse_colN (ix : List Nat) : Nat := ix.getD 1 0

/-- Values present in column `c`. -/
def sparse_col_values_n (x : SparseTensorN) (c : Nat) : List EFloat :=
  (x.indices.zip x.values).filterMap fun p =>
    if sparse_colN p.1 = c then some p.2 else none

/-- Per-column present-entry count (`reduce_batch_count` on the sparse
indicator, axis 0). -/
def reduce_batch_count_sparseN_percol (x : SparseTensorN) : List Int :=
  (List.range (x.dense_shape.getD 1 0)).map fun c =>
    ((sparse_col_values_n x c).map fun _ => (1 : Int)).sum

/-- `tf.sparse_reduce_sum(x, axis=0)`: per-column sum of present values (no
NaN masking on the sparse path). -/
def sparse_reduce_sum_axis0_n (x : SparseTensorN) : List EFloat :=
  (List.range (x.dense_shape.getD 1 0)).map fun c =>
    (sparse_col_values_n x c).foldl EFloat.add (.fin 0)

/-- `reduce_batch_count_mean_and_var` on a SparseTensor with
`reduce_instance_dims = False`.  A rank other than 2 raises
NotImplementedError — in the source the count and mean nodes are built
before the check, but the raise discards them, so the call produces the
error for every non-rank-2 input.  For rank 2: per-column count and mean,
the per-column mean gathered back onto each present coordinate through its
column index, and the variance from the summed squared centered values
(summed through the dense `reduce_batch_sum`, hence a single scalar)
broadcast-divided by the per-column count. -/
def reduce_batch_count_mean_and_var_sparse_percol (x : SparseTensorN) :
    Except String (List EFloat × List EFloat × List EFloat) :=
  if x.dense_shape.length ≠ 2 then
    Except.error "Mean and var only support SparseTensors with rank 2"
  else
    let x_count := (reduce_batch_count_sparseN_percol x).map fun n =>
      EFloat.fin (n : ℚ)
    let x_mean := List.zipWith EFloat.div (sparse_reduce_sum_axis0_n x) x_count
    let mean_values := x.indices.map fun ix => x_mean.getD (sparse_colN ix) (.fin 0)
    let x_minus_mean := List.zipWith EFloat.sub x.values mean_values
    let sq_sum := reduce_batch_sum_dense_float (x_minus_mean.map fun v => v.mul v)
    let x_variance := x_count.map fun c => sq_sum.div c
    Except.ok (x_count, x_mean, x_variance)

/-- C8: a sparse batch whose rank is not 2, passed to the Mean/Variance
reducer in per-column mode, produces the explicit NotImplementedError
rather than any (count, mean, variance) triple. -/
theorem C8_sparse_rank_other_than_2_not_implemented (x : SparseTensorN)
    (h : x.dense_shape.length ≠ 2) :
    reduce_batch_count_mean_and_var_sparse_percol x
      = Except.error "Mean and var only support SparseTensors with rank 2" := by
  rw [reduce_batch_count_mean_and_var_sparse_percol, if_pos h]

/-- Witness for C8: a rank-3 sparse batch with one entry produces the
NotImplementedError. -/
theorem C8_sparse_rank_other_than_2_not_implemented_witness :
    reduce_batch_count_mean_and_var_sparse_percol
        ⟨[[0, 0, 0]], [.fin 1], [1, 1, 1]⟩
      = Except.error "Mean and var only support SparseTensors with rank 2" :=
  C8_sparse_rank_other_than_2_not_implemented ⟨[[0, 0, 0]], [.fin 1], [1, 1, 1]⟩
    (by decide)

end TfUtils

namespace TfUtils

/-!
Merge behavior of the partial aggregates across a batch split.
-/

theorem EFloat.add_assoc (a b c : EFloat) :
    (a.add b).add c = a.add (b.add c) := by
  cases a <;> cases b <;> cases c <;> simp [EFloat.add] <;> ring

theorem EFloat.fin_zero_add (v : EFloat) : (EFloat.fin 0).add v = v := by
  cases v <;> simp [EFloat.add]

theorem foldl_add_shift (l : List EFloat) : ∀ j : EFloat,
    l.foldl EFloat.add j = j.add (l.foldl EFloat.add (.fin 0)) := by
  induction l with
  | nil => intro j; exact (EFloat.add_fin_zero j).symm
  | cons v t ih =>
    intro j
    show t.foldl EFloat.add (j.add v)
        = j.add (t.foldl EFloat.add ((EFloat.fin 0).add v))
    rw [EFloat.fin_zero_add, ih (j.add v), ih v, EFloat.add_assoc]

/-- The dense floating sum merges by IEEE addition across a batch split. -/
theorem sum_dense_float_append (A B : List EFloat) :
    reduce_batch_sum_dense_float (A ++ B)
      = (reduce_batch_sum_dense_float A).add (reduce_batch_sum_dense_float B) := by
  rw [reduce_batch_sum_dense_float, reduce_batch_sum_dense_float,
    reduce_batch_sum_dense_float, List.map_append, List.foldl_append]
  exact foldl_add_shift _ _

/-- Closed form of the dense floating count: the number of non-NaN elements. -/
theorem count_dense_float_closed_form (x : List EFloat) :
    reduce_batch_count_dense_float x
      = .fin ((x.countP fun v => !v.isNaN : ℕ) : ℚ) := by
  have h := count_dense_float_aux x 0
  rw [zero_add] at h
  rw [reduce_batch_count_dense_float, reduce_batch_sum_dense_float,
    mask_ones_like]
  exact h

theorem EFloat.maxi_fin (a b : ℚ) :
    EFloat.maxi (.fin a) (.fin b) = .fin (max a b) := by
  by_cases h : a < b
  · simp [EFloat.maxi, EFloat.ltB, h, max_eq_right h.le]
  · simp [EFloat.maxi, EFloat.ltB, h, max_eq_left (not_lt.mp h)]

theorem foldl_maxi_fin (t : List ℚ) : ∀ a : ℚ,
    (t.map EFloat.fin).foldl EFloat.maxi (.fin a) = .fin (t.foldl max a) := by
  induction t with
  | nil => intro a; rfl
  | cons b t ih =>
    intro a
    show (t.map EFloat.fin).foldl EFloat.maxi (EFloat.maxi (.fin a) (.fin b))
        = .fin ((b :: t).foldl max a)
    rw [EFloat.maxi_fin, ih (max a b)]
    rfl

/-- On a nonempty batch of finite values the floating maximum reduction is
the finite maximum. -/
theorem reduce_max_float_fin_cons (a : ℚ) (t : List ℚ) :
    reduce_max_float ((a :: t).map EFloat.fin) = .fin (t.foldl max a) := by
  rw [reduce_max_float]
  show (t.map EFloat.fin).foldl EFloat.maxi (EFloat.maxi .ninf (.fin a))
      = .fin (t.foldl max a)
  have h1 : EFloat.maxi .ninf (.fin a) = .fin a := rfl
  rw [h1, foldl_maxi_fin]

/-- The floating maximum reduction of nonempty finite batches splits over
concatenation. -/
theorem reduce_max_float_fin_append (A B : List ℚ) (hA : A ≠ []) (hB : B ≠ []) :
    reduce_max_float ((A ++ B).map EFloat.fin)
      = EFloat.maxi (reduce_max_float (A.map EFloat.fin))
          (reduce_max_float (B.map EFloat.fin)) := by
  obtain ⟨a, A1, rfl⟩ := List.exists_cons_of_ne_nil hA
  obtain ⟨b, B1, rfl⟩ := List.exists_cons_of_ne_nil hB
  rw [List.cons_append, reduce_max_float_fin_cons, reduce_max_float_fin_cons,
    reduce_max_float_fin_cons, EFloat.maxi_fin]
  congr 1
  rw [List.foldl_append]
  show B1.foldl max (max (A1.foldl max a) b) = _
  exact foldl_max_init_max B1 (A1.foldl max a) b

theorem inf_to_nan_fin (q : ℚ) : _inf_to_nan (.fin q) = .fin q := rfl

theorem inf_to_nan_reduce_max_fin_append (A B : List ℚ) (hA : A ≠ [])
    (hB : B ≠ []) :
    _inf_to_nan (reduce_max_float ((A ++ B).map EFloat.fin))
      = EFloat.maxi (_inf_to_nan (reduce_max_float (A.map EFloat.fin)))
          (_inf_to_nan (reduce_max_float (B.map EFloat.fin))) := by
  obtain ⟨a, A1, rfl⟩ := List.exists_cons_of_ne_nil hA
  obtain ⟨b, B1, rfl⟩ := List.exists_cons_of_ne_nil hB
  rw [reduce_max_float_fin_append _ _ (List.cons_ne_nil a A1)
      (List.cons_ne_nil b B1),
    reduce_max_float_fin_cons, reduce_max_float_fin_cons, EFloat.maxi_fin]
  rw [inf_to_nan_fin, inf_to_nan_fin, inf_to_nan_fin, EFloat.maxi_fin]

/-- The negated input of the floating Min/Max reducer on a finite batch is
again a finite batch. -/
theorem neg_input_fin (X : List ℚ) :
    ((X.map EFloat.fin).map fun v => (EFloat.fin 0).sub v)
      = (X.map fun q => (0 : ℚ) + -q).map EFloat.fin := by
  rw [List.map_map, List.map_map]
  rfl

/-- Counterexample for C1 as stated over every batch: for the floating
split A = [NaN], B = [1], merging the Min/Max pairs of A and B by pairwise
maximum gives (NaN, NaN) (the all-NaN reduction of A is remapped to NaN,
which absorbs the maximum), while the Min/Max pair of the concatenated
batch [NaN, 1] is (-1, 1). -/
theorem C1_counterexample :
    (EFloat.maxi (reduce_batch_minus_min_and_max_dense_float [EFloat.nan]).1
        (reduce_batch_minus_min_and_max_dense_float [EFloat.fin 1]).1,
     EFloat.maxi (reduce_batch_minus_min_and_max_dense_float [EFloat.nan]).2
        (reduce_batch_minus_min_and_max_dense_float [EFloat.fin 1]).2)
      = (EFloat.nan, EFloat.nan) ∧
    reduce_batch_minus_min_and_max_dense_float ([EFloat.nan] ++ [EFloat.fin 1])
      = (EFloat.fin (-1), EFloat.fin 1) ∧
    ((EFloat.fin (-1), EFloat.fin 1) : EFloat × EFloat)
      ≠ (EFloat.nan, EFloat.nan) := by
  refine ⟨rfl, ?_, by simp⟩
  show (EFloat.fin (0 + -1), EFloat.fin 1) = (EFloat.fin (-1), EFloat.fin 1)
  norm_num

/-- C1 (amended): across any split of a batch into sub-batches A and B, the
Count and Sum reducers merge by addition — for dense int64 batches and for
dense floating batches (IEEE addition, NaN handling included) — and the
Min/Max reducer output pair merges by pairwise maximum for dense int64
batches and for dense floating batches of finite values with both
sub-batches nonempty.  (When a floating sub-batch reduces to the NaN remap,
as in the counterexample, the Min/Max merge equality can fail.) -/
theorem C1_merge_partial_aggregates :
    (∀ A B : List Int,
      reduce_batch_count_dense_int (A ++ B)
        = reduce_batch_count_dense_int A + reduce_batch_count_dense_int B) ∧
    (∀ A B : List Int,
      reduce_batch_sum_dense_int (A ++ B)
        = reduce_batch_sum_dense_int A + reduce_batch_sum_dense_int B) ∧
    (∀ A B : List Int,
      reduce_batch_minus_min_and_max_dense_int (A ++ B)
        = (max (reduce_batch_minus_min_and_max_dense_int A).1
             (reduce_batch_minus_min_and_max_dense_int B).1,
           max (reduce_batch_minus_min_and_max_dense_int A).2
             (reduce_batch_minus_min_and_max_dense_int B).2)) ∧
    (∀ A B : List EFloat,
      reduce_batch_count_dense_float (A ++ B)
        = (reduce_batch_count_dense_float A).add
            (reduce_batch_count_dense_float B)) ∧
    (∀ A B : List EFloat,
      reduce_batch_sum_dense_float (A ++ B)
        = (reduce_batch_sum_dense_float A).add
            (reduce_batch_sum_dense_float B)) ∧
    (∀ A B : List ℚ, A ≠ [] → B ≠ [] →
      reduce_batch_minus_min_and_max_dense_float ((A ++ B).map EFloat.fin)
        = (EFloat.maxi
             (reduce_batch_minus_min_and_max_dense_float (A.map EFloat.fin)).1
             (reduce_batch_minus_min_and_max_dense_float (B.map EFloat.fin)).1,
           EFloat.maxi
             (reduce_batch_minus_min_and_max_dense_float (A.map EFloat.fin)).2
             (reduce_batch_minus_min_and_max_dense_float (B.map EFloat.fin)).2)) := by
  refine ⟨?_, ?_, ?_, ?_, ?_, ?_⟩
  · intro A B
    simp [reduce_batch_count_dense_int, reduce_batch_sum_dense_int,
      List.map_append, List.sum_append]
  · intro A B
    simp [reduce_batch_sum_dense_int, List.map_append, List.sum_append]
  · intro A B
    have h1 : reduce_max_int int64_lowest ((A ++ B).map fun v => wrap 64 (0 - v))
        = max (reduce_max_int int64_lowest (A.map fun v => wrap 64 (0 - v)))
              (reduce_max_int int64_lowest (B.map fun v => wrap 64 (0 - v))) := by
      rw [reduce_max_int, reduce_max_int, reduce_max_int, List.map_append,
        foldl_max_append]
    have h2 : reduce_max_int int64_lowest (A ++ B)
        = max (reduce_max_int int64_lowest A) (reduce_max_int int64_lowest B) := by
      rw [reduce_max_int, reduce_max_int, reduce_max_int, foldl_max_append]
    simp only [reduce_batch_minus_min_and_max_dense_int, h1, h2]
  · intro A B
    rw [reduce_batch_count_dense_float, ones_like_masked, List.map_append,
      sum_dense_float_append]
    rfl
  · intro A B
    exact sum_dense_float_append A B
  · intro A B hA hB
    have hmapne : ∀ X : List ℚ, X ≠ [] → (X.map fun q => (0 : ℚ) + -q) ≠ [] := by
      intro X hX h
      exact hX (List.map_eq_nil.mp h)
    have hcomp2 := inf_to_nan_reduce_max_fin_append A B hA hB
    have hcomp1 : _inf_to_nan (reduce_max_float
          (((A ++ B).map EFloat.fin).map fun v => (EFloat.fin 0).sub v))
        = EFloat.maxi
            (_inf_to_nan (reduce_max_float
              ((A.map EFloat.fin).map fun v => (EFloat.fin 0).sub v)))
            (_inf_to_nan (reduce_max_float
              ((B.map EFloat.fin).map fun v => (EFloat.fin 0).sub v))) := by
      rw [neg_input_fin, neg_input_fin, neg_input_fin, List.map_append]
      exact inf_to_nan_reduce_max_fin_append _ _ (hmapne A hA) (hmapne B hB)
    exact Prod.ext hcomp1 hcomp2

/-- Witness for C1: the floating Min/Max merge conjunct at the nonempty
finite split A = [1], B = [2]. -/
theorem C1_merge_partial_aggregates_witness :
    reduce_batch_minus_min_and_max_dense_float
        ((([1] : List ℚ) ++ [2]).map EFloat.fin)
      = (EFloat.maxi
           (reduce_batch_minus_min_and_max_dense_float
             (([1] : List ℚ).map EFloat.fin)).1
           (reduce_batch_minus_min_and_max_dense_float
             (([2] : List ℚ).map EFloat.fin)).1,
         EFloat.maxi
           (reduce_batch_minus_min_and_max_dense_float
             (([1] : List ℚ).map EFloat.fin)).2
           (reduce_batch_minus_min_and_max_dense_float
             (([2] : List ℚ).map EFloat.fin)).2) :=
  C1_merge_partial_aggregates.2.2.2.2.2 [1] [2] (List.cons_ne_nil 1 [])
    (List.cons_ne_nil 2 [])

end TfUtils
